import Mathlib

/-!
Verification of the jocarsa-plum directory scanner and sunburst transformer
(`src/plum.py`) against its specification.

The filesystem is modelled as an inductive tree `FSNode`.  A regular file
carries a `statFails` flag meaning that `os.stat`/`os.path.getsize` on it
raises an `OSError` (permission on a non-executable parent directory, a race
where the file vanished, an I/O error); `os.path.isfile`/`isdir` swallow that
error and return `False`.  A directory carries a `listable` flag meaning that
`os.scandir` on it succeeds; `os.walk` silently skips a directory it cannot
list (default `onerror=None`).  A symbolic link to a regular file is listed
like a file (scandir's `is_dir` follows links) but is skipped by the
`islink` test inside `get_size`'s walk.  `other` stands for a path that is
neither a regular file nor a directory (broken symlink, socket, ...): both
`isfile` and `isdir` are false on it, and inside a walk it contributes 0
bytes without raising.
-/

inductive FSNode : Type where
  | file (name : String) (size : Nat) (statFails : Bool)
  | symlinkFile (name : String) (targetSize : Nat)
  | other (name : String)
  | dir (name : String) (listable : Bool) (children : List FSNode)

mutual

/-- The summation loop of `os.walk` inside `get_size` (`plum.py` lines
12-19), on one node encountered during the walk: a regular file contributes
its size, unless `getsize` raises, which aborts the whole walk (`none`);
a symlink is skipped by the `islink` test; an `other` entry contributes
its zero `st_size`; an unlistable directory is skipped by `os.walk`
(contributing 0), a listable one is recursed into. -/
def walkNode : FSNode → Option Nat
  | .file _ sz sf => if sf then none else some sz
  | .symlinkFile _ _ => some 0
  | .other _ => some 0
  | .dir _ listable children => if listable then walkList children else some 0

/-- The same walk over a list of sibling entries; `none` (an uncaught
`OSError` from `getsize`) aborts the remaining iteration. -/
def walkList : List FSNode → Option Nat
  | [] => some 0
  | x :: xs =>
      match walkNode x, walkList xs with
      | some a, some b => some (a + b)
      | _, _ => none

end

/-- `get_size(path)` (`plum.py` lines 6-21): for a regular file,
`os.path.getsize`; for a directory, the `os.walk` summation; any
`OSError`/`PermissionError` escaping those is caught and `None` is
returned, and a path that is neither file nor directory falls off the end
of the function, also returning `None`. -/
def get_size : FSNode → Option Nat
  | .file _ sz sf => if sf then none else some sz
  | .symlinkFile _ tsz => some tsz
  | .dir _ listable children => if listable then walkList children else some 0
  | .other _ => none

/-- One record of the scanner output: a Python dict with keys
`name`, `path`, `type`, `size` and, for directories only, `contents`.
The `type` field is represented by the constructor. -/
inductive DirectoryEntry : Type where
  | dirE (name path : String) (size : Option Nat) (contents : List DirectoryEntry)
  | fileE (name path : String) (size : Option Nat)

def DirectoryEntry.size : DirectoryEntry → Option Nat
  | .dirE _ _ s _ => s
  | .fileE _ _ s => s

def DirectoryEntry.path : DirectoryEntry → String
  | .dirE _ p _ _ => p
  | .fileE _ p _ => p

/-- `os.path.join(root, entry.name)`, i.e. `entry.path` under `os.scandir`. -/
def childPath (root name : String) : String := root ++ "/" ++ name

mutual

/-- `list_files_and_folders_recursive(root, folders_only)` (`plum.py`
lines 23-54).  `os.scandir` on a non-directory or on an unlistable
directory raises an `OSError`, caught by the `except` clause, so the
accumulated (empty) structure is returned. -/
def list_files_and_folders_recursive : FSNode → String → Bool → List DirectoryEntry
  | .dir _ listable children, rootPath, folders_only =>
      if listable then scanEntries rootPath folders_only children else []
  | _, _, _ => []
termination_by n _ _ => (sizeOf n, 0)

/-- The `for entry in os.scandir(root)` loop body, iterated over the
directory's children in filesystem order. -/
def scanEntries : String → Bool → List FSNode → List DirectoryEntry
  | _, _, [] => []
  | rootPath, folders_only, e :: es =>
      scanOne rootPath folders_only e ++ scanEntries rootPath folders_only es
termination_by _ _ l => (sizeOf l, 2)

/-- One iteration of the scandir loop: a directory entry is always
appended with its aggregate `get_size` and recursive `contents`; a
non-directory entry (regular file, symlink to a file — `entry.is_dir()`
follows links — broken symlink or socket) is appended with its `get_size`
only when `folders_only` is false. -/
def scanOne : String → Bool → FSNode → List DirectoryEntry
  | rootPath, folders_only, .dir name l ch =>
      [.dirE name (childPath rootPath name) (get_size (.dir name l ch))
        (list_files_and_folders_recursive (.dir name l ch) (childPath rootPath name) folders_only)]
  | rootPath, folders_only, .file name sz sf =>
      if folders_only then [] else
        [.fileE name (childPath rootPath name) (get_size (.file name sz sf))]
  | rootPath, folders_only, .symlinkFile name tsz =>
      if folders_only then [] else
        [.fileE name (childPath rootPath name) (get_size (.symlinkFile name tsz))]
  | rootPath, folders_only, .other name =>
      if folders_only then [] else
        [.fileE name (childPath rootPath name) (get_size (.other name))]
termination_by _ _ e => (sizeOf e, 1)

end

/-- One node of the transformer output: a Python dict whose keys are
`name` and, depending on the branch taken, `children` and/or `value`.
Both optional fields are kept optional so that the exclusivity invariant
(exactly one of the two present) is a statement about the code, not about
the type. -/
inductive VisNode : Type where
  | mk (name : String) (children : Option (List VisNode)) (value : Option Nat)

def VisNode.name : VisNode → String
  | .mk n _ _ => n

def VisNode.children : VisNode → Option (List VisNode)
  | .mk _ c _ => c

def VisNode.value : VisNode → Option Nat
  | .mk _ _ v => v

mutual

/-- `transform_for_d3_sunburst(data, parent_name)` (`plum.py` lines
56-88): builds `{name: parent_name, children: []}` and appends one child
node per input item. -/
def transform_for_d3_sunburst : List DirectoryEntry → String → VisNode
  | data, parent_name => VisNode.mk parent_name (some (transformItems data)) none
termination_by data _ => (sizeOf data, 1)

/-- The `for item in data` loop: the appended children, in input order. -/
def transformItems : List DirectoryEntry → List VisNode
  | [] => []
  | item :: rest => transformItem item :: transformItems rest
termination_by l => (sizeOf l, 0)

/-- One iteration of the transformer loop.  `size = item.get('size', 0)
or 0` maps an absent/`None` size to 0.  When `'contents' in item and
item['contents']` (a directory dict with a non-empty contents list), the
contents are transformed recursively with the directory's `path` as the
new parent name and the node's `name` is overridden to that `path`;
otherwise (a file dict, which has no `contents` key, or a directory with
empty contents) a leaf `{name: item['path'], value: size}` is appended. -/
def transformItem : DirectoryEntry → VisNode
  | .dirE _ path size contents =>
      match contents with
      | [] => VisNode.mk path none (some (size.getD 0))
      | c :: cs =>
          let children_node := transform_for_d3_sunburst (c :: cs) path
          VisNode.mk path children_node.children children_node.value
  | .fileE _ path size => VisNode.mk path none (some (size.getD 0))
termination_by e => (sizeOf e, 0)

end

mutual

/-- Leaf/branch exclusivity, recursively: exactly one of `children`,
`value` is present at this node, and the same holds below. -/
def exclusiveNode : VisNode → Bool
  | .mk _ none (some _) => true
  | .mk _ (some l) none => exclusiveList l
  | .mk _ _ _ => false

def exclusiveList : List VisNode → Bool
  | [] => true
  | x :: xs => exclusiveNode x && exclusiveList xs

end

mutual

/-- Every entry of a scanner output tree is a directory entry, at every
depth. -/
def onlyDirsEntry : DirectoryEntry → Bool
  | .dirE _ _ _ contents => onlyDirsList contents
  | .fileE _ _ _ => false

def onlyDirsList : List DirectoryEntry → Bool
  | [] => true
  | e :: es => onlyDirsEntry e && onlyDirsList es

end

/-- Removes every file entry from a scanner output tree, at every depth,
keeping directory entries (their name, path and size untouched) and
recursing into their contents. -/
def dropFilesList : List DirectoryEntry → List DirectoryEntry
  | [] => []
  | .dirE n p s c :: rest => .dirE n p s (dropFilesList c) :: dropFilesList rest
  | .fileE _ _ _ :: rest => dropFilesList rest

/-- A subtree list is clean when every node in it is a regular file whose
stat succeeds or a listable directory of clean children: no symbolic
links, no `other` entries, no read errors anywhere. -/
def cleanList : List FSNode → Bool
  | [] => true
  | .file _ _ sf :: xs => !sf && cleanList xs
  | .dir _ l ch :: xs => l && cleanList ch && cleanList xs
  | .symlinkFile _ _ :: _ => false
  | .other _ :: _ => false

/-- The sum of the byte sizes of all regular files transitively contained
in a list of subtrees. -/
def sumSizes : List FSNode → Nat
  | [] => 0
  | .file _ sz _ :: xs => sz + sumSizes xs
  | .dir _ _ ch :: xs => sumSizes ch + sumSizes xs
  | .symlinkFile _ _ :: xs => sumSizes xs
  | .other _ :: xs => sumSizes xs

/-- The filesystem state refuting claim C1: a root directory containing a
directory `D` containing one regular file `f` whose `stat` raises. -/
def fsC1 : FSNode := FSNode.dir "r" true [FSNode.dir "D" true [FSNode.file "f" 5 true]]

theorem scanEntries_append : ∀ (p : String) (fo : Bool) (a b : List FSNode),
    scanEntries p fo (a ++ b) = scanEntries p fo a ++ scanEntries p fo b
  | _, _, [], _ => by simp [scanEntries]
  | p, fo, e :: a, b => by
      have ih := scanEntries_append p fo a b
      simp [scanEntries, ih]

theorem walkList_clean : ∀ (l : List FSNode), cleanList l = true → walkList l = some (sumSizes l)
  | [], _ => by simp [walkList, sumSizes]
  | .file _ sz sf :: xs, h => by
      simp only [cleanList, Bool.and_eq_true, Bool.not_eq_true'] at h
      obtain ⟨hsf, hxs⟩ := h
      have ih := walkList_clean xs hxs
      simp [walkList, walkNode, hsf, ih, sumSizes]
  | .dir _ lb ch :: xs, h => by
      simp only [cleanList, Bool.and_eq_true] at h
      obtain ⟨⟨hlb, hch⟩, hxs⟩ := h
      have ih1 := walkList_clean ch hch
      have ih2 := walkList_clean xs hxs
      simp [walkList, walkNode, hlb, ih1, ih2, sumSizes]
  | .symlinkFile _ _ :: _, h => by simp [cleanList] at h
  | .other _ :: _, h => by simp [cleanList] at h

theorem onlyDirs_scanEntries : ∀ (p : String) (l : List FSNode),
    onlyDirsList (scanEntries p true l) = true
  | _, [] => by simp [scanEntries, onlyDirsList]
  | p, .dir n lb ch :: es => by
      have ih1 := onlyDirs_scanEntries (childPath p n) ch
      have ih2 := onlyDirs_scanEntries p es
      cases lb <;>
        simp [scanEntries, scanOne, onlyDirsList, onlyDirsEntry,
          list_files_and_folders_recursive, ih1, ih2]
  | p, .file _ _ _ :: es => by
      have ih := onlyDirs_scanEntries p es
      simp [scanEntries, scanOne, ih]
  | p, .symlinkFile _ _ :: es => by
      have ih := onlyDirs_scanEntries p es
      simp [scanEntries, scanOne, ih]
  | p, .other _ :: es => by
      have ih := onlyDirs_scanEntries p es
      simp [scanEntries, scanOne, ih]

theorem dropFiles_scanEntries : ∀ (p : String) (l : List FSNode),
    scanEntries p true l = dropFilesList (scanEntries p false l)
  | _, [] => by simp [scanEntries, dropFilesList]
  | p, .dir n lb ch :: es => by
      have ih1 := dropFiles_scanEntries (childPath p n) ch
      have ih2 := dropFiles_scanEntries p es
      cases lb <;>
        simp [scanEntries, scanOne, dropFilesList,
          list_files_and_folders_recursive, ih1, ih2]
  | p, .file _ _ _ :: es => by
      have ih := dropFiles_scanEntries p es
      simp [scanEntries, scanOne, dropFilesList, ih]
  | p, .symlinkFile _ _ :: es => by
      have ih := dropFiles_scanEntries p es
      simp [scanEntries, scanOne, dropFilesList, ih]
  | p, .other _ :: es => by
      have ih := dropFiles_scanEntries p es
      simp [scanEntries, scanOne, dropFilesList, ih]

mutual

theorem exclusive_transformItems : ∀ (l : List DirectoryEntry),
    exclusiveList (transformItems l) = true
  | [] => by simp [transformItems, exclusiveList]
  | item :: rest => by
      have h1 := exclusive_transformItem item
      have h2 := exclusive_transformItems rest
      simp [transformItems, exclusiveList, h1, h2]
termination_by l => sizeOf l

theorem exclusive_transformItem : ∀ (e : DirectoryEntry),
    exclusiveNode (transformItem e) = true
  | .fileE _ _ _ => by simp [transformItem, exclusiveNode]
  | .dirE _ _ _ [] => by simp [transformItem, exclusiveNode]
  | .dirE _ _ _ (c :: cs) => by
      have ih := exclusive_transformItems (c :: cs)
      simp [transformItem, transform_for_d3_sunburst, VisNode.children, VisNode.value,
        exclusiveNode, ih]
termination_by e => sizeOf e

end

/-- Claim C1, counterexample.  In `fsC1`, the only failing probe is the
`stat` of the single file `f`; the claim predicts that the enclosing
directory `D` keeps a numeric size (`f` contributing 0 to the aggregate).
In fact the scan's sole top-level entry, `D`, gets size `None`: the
`getsize(f)` exception inside `get_size(D)`'s walk is caught at the whole
directory query, so no numeric size exists for `D`. -/
theorem C1_counterexample :
    ¬ ∃ m : Nat,
      (list_files_and_folders_recursive fsC1 "r" false).map DirectoryEntry.size
        = [some m] := by
  intro ⟨m, hm⟩
  have h : (list_files_and_folders_recursive fsC1 "r" false).map DirectoryEntry.size
      = [none] := by
    simp [fsC1, list_files_and_folders_recursive, scanEntries, scanOne, get_size,
      walkList, walkNode, DirectoryEntry.size]
  rw [h] at hm
  simp at hm

/-- Claim C1 (amended): a failing size probe on one entry yields a null
size for that entry while the scandir walk continues unchanged with the
other entries, and a regular file whose stat fails is still listed, with
size null; but an absent size does not contribute 0 to enclosing
aggregates: whenever the `os.walk` summation under a directory raises
(`walkList = none`), that directory's own `get_size` is null — an error
marker, not a number.  Only a subtree whose listing fails contributes 0,
the enclosing size then staying a number (`some 0` for the unlistable
directory itself). -/
theorem C1_size_probe_failure (p : String) (fo : Bool) (x : FSNode) (xs : List FSNode)
    (n : String) (sz : Nat) (ch : List FSNode) (h : walkList ch = none) :
    scanEntries p fo (x :: xs) = scanOne p fo x ++ scanEntries p fo xs
    ∧ scanOne p false (FSNode.file n sz true) = [DirectoryEntry.fileE n (childPath p n) none]
    ∧ get_size (FSNode.dir n true ch) = none
    ∧ get_size (FSNode.dir n false ch) = some 0 := by
  refine ⟨?_, ?_, ?_, ?_⟩
  · simp [scanEntries]
  · simp [scanOne, get_size]
  · simp [get_size, h]
  · simp [get_size]

theorem C1_size_probe_failure_witness :
    walkList [FSNode.file "f" 5 true] = none
    ∧ (scanEntries "r" false (FSNode.file "a" 1 false :: [])
         = scanOne "r" false (FSNode.file "a" 1 false) ++ scanEntries "r" false []
       ∧ scanOne "r" false (FSNode.file "D" 7 true)
           = [DirectoryEntry.fileE "D" (childPath "r" "D") none]
       ∧ get_size (FSNode.dir "D" true [FSNode.file "f" 5 true]) = none
       ∧ get_size (FSNode.dir "D" false [FSNode.file "f" 5 true]) = some 0) :=
  ⟨by simp [walkList, walkNode],
   C1_size_probe_failure "r" false (FSNode.file "a" 1 false) [] "D" 7
     [FSNode.file "f" 5 true] (by simp [walkList, walkNode])⟩

/-- Claim C2: the scanner is total (it is a Lean function), a directory
whose listing cannot be read yields an empty `contents` sequence, and
inside any readable parent such a directory is recorded with `contents =
[]` (and aggregate size `some 0`, the walk skipping it) while the entries
before and after it are scanned exactly as they would be on their own:
the error never propagates. -/
theorem C2_unreadable_dir (p q rn : String) (fo : Bool) (n : String)
    (ch pre post : List FSNode) :
    list_files_and_folders_recursive
        (FSNode.dir rn true (pre ++ FSNode.dir n false ch :: post)) p fo
      = scanEntries p fo pre
        ++ DirectoryEntry.dirE n (childPath p n) (some 0) [] :: scanEntries p fo post
    ∧ list_files_and_folders_recursive (FSNode.dir n false ch) q fo = [] := by
  constructor
  · simp [list_files_and_folders_recursive, scanEntries_append, scanEntries, scanOne,
      get_size]
  · simp [list_files_and_folders_recursive]

/-- Claim C3: for a directory whose subtree is clean — every node a
regular file with a working stat or a listable directory, no symlinks, no
read errors — `get_size` returns exactly the sum of the byte sizes of all
transitively contained regular files, and the scanner records exactly
that size on the directory's entry. -/
theorem C3_clean_dir_size (p : String) (fo : Bool) (n : String) (lb : Bool)
    (ch : List FSNode) (h : cleanList [FSNode.dir n lb ch] = true) :
    get_size (FSNode.dir n lb ch) = some (sumSizes ch)
    ∧ (scanEntries p fo [FSNode.dir n lb ch]).map DirectoryEntry.size
        = [some (sumSizes ch)] := by
  simp only [cleanList, Bool.and_eq_true] at h
  obtain ⟨⟨hlb, hch⟩, -⟩ := h
  have hw := walkList_clean ch hch
  constructor
  · simp [get_size, hlb, hw]
  · simp [scanEntries, scanOne, get_size, hlb, hw, DirectoryEntry.size]

theorem C3_clean_dir_size_witness :
    cleanList [FSNode.dir "D" true
      [FSNode.file "a" 10 false, FSNode.dir "d" true [FSNode.file "b" 5 false]]] = true
    ∧ (get_size (FSNode.dir "D" true
          [FSNode.file "a" 10 false, FSNode.dir "d" true [FSNode.file "b" 5 false]])
        = some (sumSizes
            [FSNode.file "a" 10 false, FSNode.dir "d" true [FSNode.file "b" 5 false]])
       ∧ (scanEntries "r" false [FSNode.dir "D" true
            [FSNode.file "a" 10 false, FSNode.dir "d" true [FSNode.file "b" 5 false]]]).map
              DirectoryEntry.size
          = [some (sumSizes
              [FSNode.file "a" 10 false, FSNode.dir "d" true [FSNode.file "b" 5 false]])]) :=
  ⟨by simp [cleanList],
   C3_clean_dir_size "r" false "D" true
     [FSNode.file "a" 10 false, FSNode.dir "d" true [FSNode.file "b" 5 false]]
     (by simp [cleanList])⟩

/-- Claim C4: every node of the transformer's output satisfies the
leaf/branch exclusivity invariant — exactly one of `children`, `value`
present, recursively — and the output's root is always a branch node
(children present, value absent) whose name is the given root name. -/
theorem C4_exclusivity_and_root (data : List DirectoryEntry) (r : String) :
    exclusiveNode (transform_for_d3_sunburst data r) = true
    ∧ (transform_for_d3_sunburst data r).children = some (transformItems data)
    ∧ (transform_for_d3_sunburst data r).value = none
    ∧ (transform_for_d3_sunburst data r).name = r := by
  refine ⟨?_, ?_, ?_, ?_⟩ <;>
    simp [transform_for_d3_sunburst, exclusiveNode, VisNode.children, VisNode.value,
      VisNode.name, exclusive_transformItems data]

/-- Claim C5: the transformer is a total Lean function of its two
arguments, so it returns a result on every well-formed input; on every
input its result is a branch node (a `children` field is always present),
and on the empty sequence it is the branch node with the given root name
and an empty child list. -/
theorem C5_transform_total (data : List DirectoryEntry) (r : String) :
    transform_for_d3_sunburst [] r = VisNode.mk r (some []) none
    ∧ (transform_for_d3_sunburst data r).children = some (transformItems data) := by
  constructor
  · simp [transform_for_d3_sunburst, transformItems]
  · simp [transform_for_d3_sunburst, VisNode.children]

/-- Claim C6: a directory entry with empty contents is transformed
exactly like a file entry with the same path and size: a leaf node named
by the entry's path whose value is the entry's size, defaulted to 0 when
the size is absent. -/
theorem C6_empty_dir_as_leaf (n p : String) (s : Option Nat) :
    transformItem (DirectoryEntry.dirE n p s []) = transformItem (DirectoryEntry.fileE n p s)
    ∧ transformItem (DirectoryEntry.dirE n p s []) = VisNode.mk p none (some (s.getD 0)) := by
  constructor <;> simp [transformItem]

/-- Claim C7: a directory entry with non-empty contents becomes a branch
node named by the directory's path whose children are the recursive
transformation of its contents (equal to transforming the contents with
the directory's path as the new root name, whose name the override leaves
unchanged), and the transformation maps over entries in input order. -/
theorem C7_nonempty_dir_branch (n p : String) (s : Option Nat)
    (c : DirectoryEntry) (cs : List DirectoryEntry) :
    transformItem (DirectoryEntry.dirE n p s (c :: cs))
      = VisNode.mk p (some (transformItems (c :: cs))) none
    ∧ transform_for_d3_sunburst (c :: cs) p
      = VisNode.mk p (some (transformItems (c :: cs))) none
    ∧ transformItems (c :: cs) = transformItem c :: transformItems cs := by
  refine ⟨?_, ?_, ?_⟩ <;>
    simp [transformItem, transform_for_d3_sunburst, transformItems,
      VisNode.children, VisNode.value]

/-- Claim C8: with `folders_only = true` the scanner's output contains
only directory entries, at every depth: no file entry appears anywhere in
the result, for any filesystem state and root path. -/
theorem C8_folders_only (fs : FSNode) (p : String) :
    onlyDirsList (list_files_and_folders_recursive fs p true) = true := by
  cases fs with
  | dir n lb ch =>
      cases lb with
      | true =>
          have h := onlyDirs_scanEntries p ch
          simpa [list_files_and_folders_recursive] using h
      | false => simp [list_files_and_folders_recursive, onlyDirsList]
  | file n sz sf => simp [list_files_and_folders_recursive, onlyDirsList]
  | symlinkFile n tsz => simp [list_files_and_folders_recursive, onlyDirsList]
  | other n => simp [list_files_and_folders_recursive, onlyDirsList]

/-- Claim C9: `get_size` on a path that is neither a regular file nor a
directory (broken symlink, socket: both `isfile` and `isdir` are false,
so neither branch applies and the function falls off its end) returns
`None` — the same value as the error case, here a file whose stat
raises. -/
theorem C9_neither_file_nor_dir (n m : String) (sz : Nat) :
    get_size (FSNode.other n) = none ∧ get_size (FSNode.file m sz true) = none := by
  constructor <;> simp [get_size]

/-- Claim C10: the `folders_only` flag only filters which entries are
listed and never changes a size: the folders-only scan equals the
all-entries scan with every file entry dropped at every depth, the
directory entries keeping their name, path and — in particular — their
size unchanged, since every directory aggregate is recomputed by
`get_size` independently of the flag. -/
theorem C10_flag_only_filters (fs : FSNode) (p : String) :
    list_files_and_folders_recursive fs p true
      = dropFilesList (list_files_and_folders_recursive fs p false) := by
  cases fs with
  | dir n lb ch =>
      cases lb with
      | true =>
          have h := dropFiles_scanEntries p ch
          simpa [list_files_and_folders_recursive] using h
      | false => simp [list_files_and_folders_recursive, dropFilesList]
  | file n sz sf => simp [list_files_and_folders_recursive, dropFilesList]
  | symlinkFile n tsz => simp [list_files_and_folders_recursive, dropFilesList]
  | other n => simp [list_files_and_folders_recursive, dropFilesList]
